import Mathlib

/-!
Verification of the Color-ls utility (a small `ls` clone in Rust).

The development shallowly embeds the pure logic of the two program variants:
the root variant `src/main.rs` (namespace `Root` where it differs) and the
project variant `src/project/color-ls/src/main.rs` together with
`src/project/color-ls/src/newInterface.rs`.  Filesystem interaction is made
explicit: the outcome of a `read_dir`/`metadata` call is passed in as an
`Except`/`Option` value, and functions that in Rust consult the filesystem
become functions of those outcomes.  Machine integers (`u32` mode bits,
`u64` sizes, `usize` counts) are modelled as `Nat`; all the operations used
on them (bitwise and/or, comparisons) are overflow-free.
-/

/-- Models `std::io::Error` (only its display text matters here). -/
structure IoErr where
  msg : String
deriving DecidableEq, Repr

/-- The custom error type `LsError` of both variants. -/
inductive LsError where
  | ioError (e : IoErr)
  | invalidFileName (name : String)
deriving DecidableEq, Repr

/-- The part of `fs::Metadata` the listed claims consult:
`metadata.permissions().mode()`. -/
structure Metadata where
  mode : Nat
deriving DecidableEq, Repr

/-- The `FileInfo` record of the project variant (`main.rs` lines 286-294).
`path` is represented by the one attribute of it the code reads, the decoded
extension `path.extension().and_then(|s| s.to_str())`; `metadata` by the mode
bits.  The root variant's `FileInfo` is the same record without `dir_count`;
we reuse this record and its root-variant functions simply never read
`dir_count`. -/
structure FileInfo where
  name : String
  mode : Nat
  ext : Option String
  is_dir : Bool
  is_symlink : Bool
  dir_count : Option Nat
deriving DecidableEq, Repr

/-- The `colored::Color` values used by either variant. -/
inductive Color where
  | red
  | green
  | blue
  | cyan
  | magenta
  | brightCyan
  | brightGreen
  | brightYellow
  | brightBlack
deriving DecidableEq, Repr

/-- `libc::S_IXUSR | libc::S_IXGRP | libc::S_IXOTH` (octal 0o111). -/
def executableBits : Nat := 0o100 ||| 0o010 ||| 0o001

/-- The archive-extension arm of the `match` in `get_file_color`
(identical lists in both variants). -/
def archiveExts : List String :=
  ["tar", "tgz", "arc", "arj", "taz", "lha", "lz4", "lzh", "lzma", "tlz",
   "txz", "tzo", "t7z", "zip", "z", "dz", "gz", "lrz", "lz", "lzo",
   "xz", "zst", "tzst", "bz2", "bz", "tbz", "tbz2", "tz", "deb", "rpm",
   "jar", "war", "ear", "sar", "rar", "alz", "ace", "zoo", "cpio", "7z",
   "rz", "cab", "wim", "swm", "dwm", "esd"]

/-- The image/video-extension arm of the `match` in `get_file_color`. -/
def imageExts : List String :=
  ["jpg", "jpeg", "mjpg", "mjpeg", "gif", "bmp", "pbm", "pgm", "ppm",
   "tga", "xbm", "xpm", "tif", "tiff", "png", "svg", "svgz", "mng",
   "pcx", "mov", "mpg", "mpeg", "m2v", "mkv", "webm", "ogm", "mp4",
   "m4v", "mp4v", "vob", "qt", "nuv", "wmv", "asf", "rm", "rmvb",
   "flc", "avi", "fli", "flv", "gl", "dl", "xcf", "xwd", "yuv", "cgm",
   "emf", "ogv", "ogx"]

/-- The audio-extension arm of the `match` in `get_file_color`. -/
def audioExts : List String :=
  ["aac", "au", "flac", "m4a", "mid", "midi", "mka", "mp3", "mpc",
   "ogg", "ra", "wav", "oga", "opus", "spx", "xspf"]

/-- Models Rust `str::to_lowercase()`: per-character lowercasing.  (On the
ASCII alphabetic data compared by this program the two agree; this form is
used because it evaluates by kernel reduction.) -/
def strToLower (s : String) : String := String.mk (s.data.map Char.toLower)

/-- `get_file_color` of the project variant
(`src/project/color-ls/src/main.rs` lines 50-94).  The Rust `match` over
disjoint string literals is rendered as the corresponding chain of
membership tests, taken in source order. -/
def get_file_color (file : FileInfo) : Option Color :=
  if file.is_dir then some Color.brightCyan
  else if file.is_symlink then some Color.red
  else if file.mode &&& executableBits ≠ 0 then some Color.brightGreen
  else
    match file.ext with
    | some extension =>
        let e := strToLower extension
        if e ∈ archiveExts then some Color.red
        else if e ∈ imageExts then some Color.magenta
        else if e ∈ audioExts then some Color.cyan
        else some Color.brightYellow
    | none => none

namespace Root

/-- `get_file_color` of the root variant (`src/main.rs` lines 38-82):
different palette, and unlisted extensions fall through to `None`. -/
def get_file_color (file : FileInfo) : Option Color :=
  if file.is_dir then some Color.blue
  else if file.is_symlink then some Color.cyan
  else if file.mode &&& executableBits ≠ 0 then some Color.green
  else
    match file.ext with
    | some extension =>
        let e := strToLower extension
        if e ∈ archiveExts then some Color.red
        else if e ∈ imageExts then some Color.magenta
        else if e ∈ audioExts then some Color.cyan
        else none
    | none => none

end Root

/-- `should_show_file` (identical in both variants). -/
def should_show_file (name : String) (show_all : Bool) : Bool :=
  show_all || !name.startsWith "."

/-- `count_directory_entries` (`src/project/color-ls/src/main.rs` lines
27-36).  The outcome of `fs::read_dir(path)` is the argument: `Ok` carries
the names of all immediate entries the iterator yields, `Err` the I/O
error. -/
def count_directory_entries (read_dir : Except IoErr (List String)) : Option Nat :=
  match read_dir with
  | .ok entries => some entries.length
  | .error _ => none

/-- `FileInfo::new` of the project variant (`main.rs` lines 297-321).
The filesystem answers become arguments, in the order the code asks for
them: `metaResult` is the outcome of `entry.metadata()`, `rawName` is
`entry.file_name()` when it decodes as UTF-8 and `none` otherwise,
`rawDebug` is the text `format!("\x7b:?\x7d", entry.file_name())` used in
the error, `ext` the decoded extension of `entry.path()`, `is_dir` and
`is_symlink` the two path tests, and `childListing` the outcome of the
`fs::read_dir` performed by `count_directory_entries` on that path. -/
def FileInfo.new (metaResult : Except IoErr Metadata) (rawName : Option String)
    (rawDebug : String) (ext : Option String) (is_dir is_symlink : Bool)
    (count_dirs : Bool) (childListing : Except IoErr (List String)) :
    Except LsError FileInfo :=
  match metaResult with
  | .error e => .error (.ioError e)
  | .ok metadata =>
    match rawName with
    | none => .error (.invalidFileName rawDebug)
    | some name =>
      let dir_count := if is_dir && count_dirs then count_directory_entries childListing
                       else none
      .ok { name := name, mode := metadata.mode, ext := ext,
            is_dir := is_dir, is_symlink := is_symlink, dir_count := dir_count }

/-- `FileInfo::from_path` of the project variant (`main.rs` lines 323-347).
`rawName` is `path.file_name().and_then(|n| n.to_str())`: `none` both when
the path has no final component and when it is not UTF-8; the code replaces
either with `""` via `unwrap_or("")`. -/
def FileInfo.from_path (metaResult : Except IoErr Metadata) (rawName : Option String)
    (ext : Option String) (is_dir is_symlink : Bool) (count_dirs : Bool)
    (childListing : Except IoErr (List String)) : Except LsError FileInfo :=
  match metaResult with
  | .error e => .error (.ioError e)
  | .ok metadata =>
    let name := (rawName.getD "")
    let dir_count := if is_dir && count_dirs then count_directory_entries childListing
                     else none
    .ok { name := name, mode := metadata.mode, ext := ext,
          is_dir := is_dir, is_symlink := is_symlink, dir_count := dir_count }

/-- The body of the `for entry in fs::read_dir(path)?` loop of
`list_directory` (`main.rs` lines 102-109).  Each list element models one
iterator step already composed with `FileInfo::new`: `.error` covers both a
failing `entry?` and a failing `FileInfo::new(entry, ..)?`.  The `?`
operator makes the first error the result of the whole loop. -/
def collect_children (show_all : Bool) :
    List (Except LsError FileInfo) → Except LsError (List FileInfo)
  | [] => .ok []
  | .error e :: _ => .error e
  | .ok fi :: rest =>
    match collect_children show_all rest with
    | .error e => .error e
    | .ok l => .ok (if should_show_file fi.name show_all then fi :: l else l)

/-- The entry-collection phase of `list_directory` (`main.rs` lines
96-114): for a directory target, `fs::read_dir(path)?` followed by the
per-child loop; for a non-directory target, one entry from
`FileInfo::from_path` with no hidden-name filter applied. -/
def list_directory_collect (path_is_dir : Bool)
    (read_dir : Except IoErr (List (Except LsError FileInfo)))
    (single : Except LsError FileInfo) (show_all : Bool) :
    Except LsError (List FileInfo) :=
  if path_is_dir then
    match read_dir with
    | .error e => .error (.ioError e)
    | .ok items => collect_children show_all items
  else
    match single with
    | .error e => .error e
    | .ok fi => .ok [fi]

/-- `libc::S_IFMT` and the file-type constants (Linux values). -/
def S_IFMT : Nat := 0o170000

def S_IFDIR : Nat := 0o040000

def S_IFLNK : Nat := 0o120000

def S_IFBLK : Nat := 0o060000

def S_IFCHR : Nat := 0o020000

def S_IFIFO : Nat := 0o010000

def S_IFSOCK : Nat := 0o140000

/-- `format_permission_triplet` (`main.rs` lines 368-373). -/
def format_permission_triplet (mode read write execute : Nat) : String :=
  let r := if mode &&& read ≠ 0 then 'r' else '-'
  let w := if mode &&& write ≠ 0 then 'w' else '-'
  let x := if mode &&& execute ≠ 0 then 'x' else '-'
  String.mk [r, w, x]

/-- `format_permissions` (`main.rs` lines 350-366).  The Rust `match` on
`mode & libc::S_IFMT` against constants is the corresponding chain of
equality tests in source order. -/
def format_permissions (mode : Nat) : String :=
  let file_type : Char :=
    if mode &&& S_IFMT = S_IFDIR then 'd'
    else if mode &&& S_IFMT = S_IFLNK then 'l'
    else if mode &&& S_IFMT = S_IFBLK then 'b'
    else if mode &&& S_IFMT = S_IFCHR then 'c'
    else if mode &&& S_IFMT = S_IFIFO then 'p'
    else if mode &&& S_IFMT = S_IFSOCK then 's'
    else '-'
  let user := format_permission_triplet mode 0o400 0o200 0o100
  let group := format_permission_triplet mode 0o040 0o020 0o010
  let other := format_permission_triplet mode 0o004 0o002 0o001
  String.mk [file_type] ++ user ++ group ++ other

/-- The unit names of `format_size`. -/
def UNITS : List String := ["B", "K", "M", "G", "T", "P"]

/-- One step below: the `while size >= 1024.0 && unit_index < UNITS.len()-1`
loop of `format_size`.  The guard bounds `unit_index` by 5 and the body
increments it, so the loop runs at most 5 times; the structural `fuel`
argument (called with 5) therefore never runs out before the guard fails.
The `f64` value of `size` stays an exact dyadic rational under division by
1024, so `ℚ` arithmetic reproduces the float computation exactly (for
sizes below 2^53, where the integer-to-float conversion is exact). -/
def sizeLoopAux : Nat → ℚ → Nat → ℚ × Nat
  | 0, size, unit_index => (size, unit_index)
  | fuel + 1, size, unit_index =>
    if 1024 ≤ size ∧ unit_index < 5 then sizeLoopAux fuel (size / 1024) (unit_index + 1)
    else (size, unit_index)

/-- The scaling loop of `format_size`, started at `unit_index = 0`. -/
def sizeLoop (size : ℚ) : ℚ × Nat := sizeLoopAux 5 size 0

/-- Round a nonnegative rational to the nearest integer, ties to even:
the rounding Rust applies when formatting the exactly-represented float
with a fixed precision. -/
def roundHalfEven (q : ℚ) : ℤ :=
  let f := ⌊q⌋
  let r := q - (f : ℚ)
  if (1 : ℚ) / 2 < r then f + 1
  else if r < (1 : ℚ) / 2 then f
  else if f % 2 = 0 then f else f + 1

/-- Rust `format!("\x7b:.0\x7d", q)`: no decimal places. -/
def fmtDec0 (q : ℚ) : String := toString (roundHalfEven q)

/-- Rust `format!("\x7b:.1\x7d", q)`: one decimal place. -/
def fmtDec1 (q : ℚ) : String :=
  let t := roundHalfEven (q * 10)
  toString (t / 10) ++ "." ++ toString (t % 10)

/-- `format_size` (`main.rs` lines 375-394). -/
def format_size (size : Nat) (human_readable : Bool) : String :=
  if !human_readable then toString size
  else
    let r := sizeLoop (size : ℚ)
    if r.2 = 0 then fmtDec0 r.1 ++ UNITS.getD r.2 ""
    else fmtDec1 r.1 ++ UNITS.getD r.2 ""

/-- The `--color` flag values. -/
inductive ColorMode where
  | never
  | always
  | auto
deriving DecidableEq, Repr

/-- `ColorMode::from_str` (`main.rs` lines 237-248, identical in both
variants).  The Rust `match` with or-patterns over disjoint literals is the
corresponding chain of equality tests. -/
def ColorMode.from_str (s : String) : Except String ColorMode :=
  let l := strToLower s
  if l = "never" ∨ l = "no" ∨ l = "none" then .ok .never
  else if l = "always" ∨ l = "yes" ∨ l = "force" then .ok .always
  else if l = "auto" ∨ l = "tty" ∨ l = "if-tty" then .ok .auto
  else .error ("Invalid color mode: " ++ s)

/-- The ANSI escape character. -/
def escChar : Char := '\x1b'

/-- The ANSI foreground code emitted by `colored::Colorize::color` for each
color used by the program (`ESC [ n m`). -/
def ansiCode (c : Color) : String :=
  match c with
  | .red => "\x1b[31m"
  | .green => "\x1b[32m"
  | .blue => "\x1b[34m"
  | .cyan => "\x1b[36m"
  | .magenta => "\x1b[35m"
  | .brightCyan => "\x1b[96m"
  | .brightGreen => "\x1b[92m"
  | .brightYellow => "\x1b[93m"
  | .brightBlack => "\x1b[90m"

/-- `s.color(c).to_string()` of the `colored` crate: the color code, the
text, and the reset sequence. -/
def colorWrap (c : Color) (s : String) : String := ansiCode c ++ s ++ "\x1b[0m"

/-- Remove ANSI escape sequences from a character stream: outside a
sequence (`inSeq = false`) characters are kept and `ESC` opens a sequence;
inside a sequence everything up to and including the terminating `m` is
dropped. -/
def stripAux : Bool → List Char → List Char
  | _, [] => []
  | true, c :: rest => if c = 'm' then stripAux false rest else stripAux true rest
  | false, c :: rest => if c = escChar then stripAux true rest else c :: stripAux false rest

/-- Remove all ANSI escape sequences from a string. -/
def stripAnsi (s : String) : String := String.mk (stripAux false s.data)

/-- `colorize_filename` of the project variant (`main.rs` lines 195-204). -/
def colorize_filename (file : FileInfo) (use_color : Bool) : String :=
  if !use_color then file.name
  else
    match get_file_color file with
    | some color => colorWrap color file.name
    | none => file.name

/-- `format_filename_with_indicators` of `newInterface.rs` (lines 1-53):
the colored name plus, for directories, either the `(N)` / `[?]` count
annotation (brackets in the entry's color, the count in bright black) or a
`/` suffix when counts are disabled. -/
def format_filename_with_indicators (file : FileInfo) (use_color : Bool)
    (show_counts : Bool) : String :=
  let colored_name := colorize_filename file use_color
  if file.is_dir && show_counts then
    match file.dir_count with
    | some count =>
      if use_color then
        match get_file_color file with
        | some color =>
            colored_name ++ colorWrap color "(" ++
              colorWrap Color.brightBlack (toString count) ++ colorWrap color ")"
        | none => colored_name ++ "(" ++ toString count ++ ")"
      else colored_name ++ "(" ++ toString count ++ ")"
    | none =>
      if use_color then
        match get_file_color file with
        | some color =>
            colored_name ++ colorWrap color "[" ++
              colorWrap Color.brightBlack "?" ++ colorWrap color "]"
        | none => colored_name ++ "[?]"
      else colored_name ++ "[?]"
  else if file.is_dir then
    if use_color then
      match get_file_color file with
      | some color => colored_name ++ colorWrap color "/"
      | none => colored_name ++ "/"
    else colored_name ++ "/"
  else colored_name

/-- C6: the display filter excludes an entry exactly when its name starts
with `.` and show-hidden is false, and includes every entry when show-hidden
is true; the filter value is a function of the name and the show-hidden
option alone (it takes no sort, reverse, grouping or format option). -/
theorem should_show_file_spec :
    ∀ (name : String) (showAll : Bool),
      (should_show_file name false = false ↔ name.startsWith "." = true) ∧
      should_show_file name true = true ∧
      should_show_file name showAll = (showAll || !name.startsWith ".") := by
  intro name showAll
  refine ⟨?_, ?_, rfl⟩ <;> simp [should_show_file]

/-- C4: the directory counter returns the count of all immediate entries
found on a successful enumeration — the full length of the listing,
hidden names included, independent of the display filter (whose kept and
dropped parts always add back up to the counted total) — and returns `none`
on any enumeration error; moreover an enumeration error never aborts the
construction of the enclosing entry, which still succeeds with
`dir_count = none`. -/
theorem count_directory_entries_spec :
    ∀ (names : List String) (e : IoErr) (showAll : Bool),
      count_directory_entries (.ok names) = some names.length ∧
      count_directory_entries (.error e) = none ∧
      names.length = (names.filter (fun n => should_show_file n showAll)).length +
        (names.filter (fun n => !should_show_file n showAll)).length ∧
      (∀ (m : Metadata) (nm dbg : String) (ext : Option String) (sym : Bool),
        FileInfo.new (.ok m) (some nm) dbg ext true sym true (.error e) =
          .ok { name := nm, mode := m.mode, ext := ext, is_dir := true,
                is_symlink := sym, dir_count := none }) := by
  intro names e showAll
  refine ⟨rfl, rfl, ?_, ?_⟩
  · exact List.length_eq_length_filter_add (fun n => should_show_file n showAll)
  · intro m nm dbg ext sym
    rfl

/-- C10: the `--color` value parser accepts, after lowercasing, exactly the
words never/no/none (→ Never), always/yes/force (→ Always) and
auto/tty/if-tty (→ Auto), and rejects every other string with an
`Invalid color mode` error. -/
theorem colormode_from_str_spec :
    (∀ s : String,
      ColorMode.from_str s = .ok .never ↔ strToLower s ∈ ["never", "no", "none"]) ∧
    (∀ s : String,
      ColorMode.from_str s = .ok .always ↔ strToLower s ∈ ["always", "yes", "force"]) ∧
    (∀ s : String,
      ColorMode.from_str s = .ok .auto ↔ strToLower s ∈ ["auto", "tty", "if-tty"]) ∧
    (∀ s : String,
      strToLower s ∉ ["never", "no", "none", "always", "yes", "force",
                    "auto", "tty", "if-tty"] →
      ColorMode.from_str s = .error ("Invalid color mode: " ++ s)) ∧
    ColorMode.from_str "NEVER" = .ok .never ∧
    ColorMode.from_str "Force" = .ok .always ∧
    ColorMode.from_str "If-TTY" = .ok .auto ∧
    ColorMode.from_str "bogus" = .error "Invalid color mode: bogus" := by
  refine ⟨?_, ?_, ?_, ?_, rfl, rfl, rfl, rfl⟩ <;>
    intro s <;> simp only [ColorMode.from_str, List.mem_cons,
      List.mem_singleton, List.not_mem_nil, or_false]
  · split_ifs with h1 h2 h3 <;> simp_all
  · split_ifs with h1 h2 h3 <;> simp_all <;> rcases h1 with h | h | h <;> simp_all
  · split_ifs with h1 h2 h3 <;> simp_all <;>
      first
      | (rcases h1 with h | h | h <;> simp_all)
      | (rcases h2 with h | h | h <;> simp_all)
  · intro h
    push_neg at h
    obtain ⟨h1, h2, h3, h4, h5, h6, h7, h8, h9⟩ := h
    simp [h1, h2, h3, h4, h5, h6, h7, h8, h9]

/-- Witness for C10 at concrete inputs: the rejection branch applied to the
string tty2. -/
theorem colormode_from_str_spec_witness :
    ColorMode.from_str "tty2" = .error ("Invalid color mode: " ++ "tty2") :=
  colormode_from_str_spec.2.2.2.1 "tty2" (by decide)

/-- C8: for every mode value the permission string is exactly 10
characters: a type character drawn from d, l, b, c, p, s and dash, followed by nine
characters, each an r/w/x permission mark or a - placeholder. -/
theorem format_permissions_spec :
    ∀ mode : Nat,
      (format_permissions mode).length = 10 ∧
      ∃ c rest, (format_permissions mode).data = c :: rest ∧
        c ∈ (['d', 'l', 'b', 'c', 'p', 's', '-'] : List Char) ∧
        rest.length = 9 ∧
        ∀ ch ∈ rest, ch ∈ (['r', 'w', 'x', '-'] : List Char) := by
  intro mode
  refine ⟨rfl, _, _, rfl, ?_, rfl, ?_⟩
  · split_ifs <;> decide
  · intro ch h
    simp only [List.append_eq, List.nil_append, List.mem_append, List.mem_cons,
      List.not_mem_nil, or_false] at h
    rcases h with ((h | h | h) | (h | h | h)) | (h | h | h) <;> subst h <;>
      split <;> decide

/-- Witness for C8 at a concrete input: the permission string of a
directory with mode 0755 has length 10. -/
theorem format_permissions_spec_witness :
    (format_permissions 0o40755).length = 10 :=
  (format_permissions_spec 0o40755).1

/-- C1 (amended): both color classifiers follow the fixed precedence
directory, then symlink, then any executable permission bit, then the
case-insensitive extension tables in the order archive, image, audio; an
entry with no extension gets no special color in either variant; for an
extension in none of the tables the root variant returns no special color
while the project variant returns the default bright-yellow color. -/
theorem get_file_color_spec :
    ∀ file : FileInfo,
      (file.is_dir = true →
        get_file_color file = some Color.brightCyan ∧
        Root.get_file_color file = some Color.blue) ∧
      (file.is_dir = false → file.is_symlink = true →
        get_file_color file = some Color.red ∧
        Root.get_file_color file = some Color.cyan) ∧
      (file.is_dir = false → file.is_symlink = false →
        file.mode &&& executableBits ≠ 0 →
        get_file_color file = some Color.brightGreen ∧
        Root.get_file_color file = some Color.green) ∧
      (∀ ex, file.is_dir = false → file.is_symlink = false →
        file.mode &&& executableBits = 0 → file.ext = some ex →
        ((strToLower ex ∈ archiveExts →
            get_file_color file = some Color.red ∧
            Root.get_file_color file = some Color.red) ∧
         (strToLower ex ∉ archiveExts → strToLower ex ∈ imageExts →
            get_file_color file = some Color.magenta ∧
            Root.get_file_color file = some Color.magenta) ∧
         (strToLower ex ∉ archiveExts → strToLower ex ∉ imageExts →
            strToLower ex ∈ audioExts →
            get_file_color file = some Color.cyan ∧
            Root.get_file_color file = some Color.cyan) ∧
         (strToLower ex ∉ archiveExts → strToLower ex ∉ imageExts →
            strToLower ex ∉ audioExts →
            get_file_color file = some Color.brightYellow ∧
            Root.get_file_color file = none))) ∧
      (file.is_dir = false → file.is_symlink = false →
        file.mode &&& executableBits = 0 → file.ext = none →
        get_file_color file = none ∧ Root.get_file_color file = none) := by
  intro file
  refine ⟨?_, ?_, ?_, ?_, ?_⟩
  · intro h
    simp [get_file_color, Root.get_file_color, h]
  · intro h1 h2
    simp [get_file_color, Root.get_file_color, h1, h2]
  · intro h1 h2 h3
    simp [get_file_color, Root.get_file_color, h1, h2, h3]
  · intro ex h1 h2 h3 h4
    refine ⟨?_, ?_, ?_, ?_⟩
    · intro ha
      simp [get_file_color, Root.get_file_color, h1, h2, h3, h4, ha]
    · intro ha hi
      simp [get_file_color, Root.get_file_color, h1, h2, h3, h4, ha, hi]
    · intro ha hi hu
      simp [get_file_color, Root.get_file_color, h1, h2, h3, h4, ha, hi, hu]
    · intro ha hi hu
      simp [get_file_color, Root.get_file_color, h1, h2, h3, h4, ha, hi, hu]
  · intro h1 h2 h3 h4
    simp [get_file_color, Root.get_file_color, h1, h2, h3, h4]

/-- Witness for C1 at a concrete input: an archive extension on a plain
non-executable file is red in both variants. -/
theorem get_file_color_spec_witness :
    get_file_color { name := "a.tar", mode := 0, ext := some "tar",
                     is_dir := false, is_symlink := false, dir_count := none } =
      some Color.red ∧
    Root.get_file_color { name := "a.tar", mode := 0, ext := some "tar",
                          is_dir := false, is_symlink := false,
                          dir_count := none } = some Color.red :=
  ((get_file_color_spec _).2.2.2.1 "tar" rfl rfl (by decide) rfl).1 (by decide)

/-- Counterexample for C1 as stated: in the project variant a plain
non-executable entry whose extension txt is in none of the three tables is
classified bright yellow, not left without a special color. -/
theorem get_file_color_counterexample :
    get_file_color { name := "notes.txt", mode := 0, ext := some "txt",
                     is_dir := false, is_symlink := false, dir_count := none } =
      some Color.brightYellow ∧
    strToLower "txt" ∉ archiveExts ∧ strToLower "txt" ∉ imageExts ∧
    strToLower "txt" ∉ audioExts := by decide

/-- C2 (amended): for an entry constructed by either constructor,
`dir_count` is `some` only if the entry is a directory and counting is
enabled; for a directory with counting enabled it equals the directory
counter's answer — `some n` after a successful shallow read of `n` entries
and `none` after an enumeration failure (so `none` also occurs for such a
directory, and is distinct from `some 0` for an empty one). -/
theorem dir_count_spec :
    ∀ (metaResult : Except IoErr Metadata) (rawName ext : Option String)
      (dbg : String) (d sym cd : Bool) (listing : Except IoErr (List String))
      (fi : FileInfo),
      (FileInfo.new metaResult rawName dbg ext d sym cd listing = .ok fi ∨
        FileInfo.from_path metaResult rawName ext d sym cd listing = .ok fi) →
      (fi.dir_count.isSome = true → fi.is_dir = true ∧ cd = true) ∧
      (fi.is_dir = true → cd = true →
        fi.dir_count = count_directory_entries listing) ∧
      (∀ l, listing = .ok l → count_directory_entries listing = some l.length) ∧
      (∀ e, listing = .error e → count_directory_entries listing = none) ∧
      some 0 ≠ (none : Option Nat) := by
  intro metaResult rawName ext dbg d sym cd listing fi h
  have hfi : fi.is_dir = d ∧
      fi.dir_count = (if d && cd then count_directory_entries listing else none) := by
    rcases h with h | h
    · cases metaResult with
      | error e => simp [FileInfo.new] at h
      | ok m =>
        cases rawName with
        | none => simp [FileInfo.new] at h
        | some nm =>
          simp only [FileInfo.new, Except.ok.injEq] at h
          subst h
          exact ⟨rfl, rfl⟩
    · cases metaResult with
      | error e => simp [FileInfo.from_path] at h
      | ok m =>
        simp only [FileInfo.from_path, Except.ok.injEq] at h
        subst h
        exact ⟨rfl, rfl⟩
  refine ⟨?_, ?_, ?_, ?_, by simp⟩
  · intro hs
    rw [hfi.2] at hs
    cases hd : d && cd with
    | false => rw [hd] at hs; simp at hs
    | true =>
      have := Bool.and_eq_true d cd |>.mp hd
      exact ⟨hfi.1.trans this.1, this.2⟩
  · intro h1 h2
    have hd : d = true := (hfi.1.symm.trans h1)
    rw [hfi.2, hd, h2]
    simp
  · intro l hl
    subst hl
    rfl
  · intro e he
    subst he
    rfl

/-- Witness for C2 at concrete inputs: a directory entry built with
counting enabled over a one-entry listing carries that count. -/
theorem dir_count_spec_witness :
    ({ name := "x", mode := 0, ext := none, is_dir := true,
       is_symlink := false, dir_count := some 1 } : FileInfo).dir_count =
      count_directory_entries (.ok ["a"]) :=
  (dir_count_spec (.ok ⟨0⟩) (some "x") none "dbg" true false true (.ok ["a"]) _
    (Or.inl rfl)).2.1 rfl rfl

/-- Counterexample for C2 as stated: a directory entry built with counting
enabled whose shallow read fails gets `dir_count = none`, so `dir_count`
being `some` is not equivalent to (directory and counting enabled). -/
theorem dir_count_counterexample :
    FileInfo.new (.ok ⟨0⟩) (some "d") "dbg" none true false true
        (.error ⟨"permission denied"⟩) =
      .ok { name := "d", mode := 0, ext := none, is_dir := true,
            is_symlink := false, dir_count := none } ∧
    (none : Option Nat).isSome = false := ⟨rfl, rfl⟩

/-- C3 (amended): in the entry-collection phase of `list_directory`, an
extraction failure on one child aborts the whole listing of that path: the
first child error becomes the result and no children are returned (the
behavior §7 of the spec describes); only when every child extraction
succeeds is the filtered child list produced.  A wholesale failure
(the directory itself unreadable) also yields a path-level error, wrapped
as an I/O error.  A non-directory target contributes its single entry
unfiltered. -/
theorem list_directory_collect_spec :
    ∀ showAll : Bool,
      (∀ (e : IoErr) single,
        list_directory_collect true (.error e) single showAll =
          .error (.ioError e)) ∧
      (∀ (pre : List FileInfo) (e : LsError) post,
        collect_children showAll (pre.map .ok ++ .error e :: post) = .error e) ∧
      (∀ fis : List FileInfo,
        collect_children showAll (fis.map .ok) =
          .ok (fis.filter (fun fi => should_show_file fi.name showAll))) ∧
      (∀ items single,
        list_directory_collect true (.ok items) single showAll =
          collect_children showAll items) ∧
      (∀ read_dir (fi : FileInfo),
        list_directory_collect false read_dir (.ok fi) showAll = .ok [fi]) := by
  intro showAll
  refine ⟨fun e single => rfl, ?_, ?_, fun items single => rfl, fun rd fi => rfl⟩
  · intro pre e post
    induction pre with
    | nil => rfl
    | cons fi rest ih => simp [collect_children, ih]
  · intro fis
    induction fis with
    | nil => rfl
    | cons fi rest ih => simp [collect_children, ih, List.filter_cons]

/-- Counterexample for C3 as stated: with children ok(a), error, ok(b) the
collection phase returns the error, not the list of the two surviving
children. -/
theorem list_directory_collect_counterexample :
    list_directory_collect true
        (.ok [.ok { name := "a", mode := 0, ext := none, is_dir := false,
                    is_symlink := false, dir_count := none },
              .error (.invalidFileName "bad"),
              .ok { name := "b", mode := 0, ext := none, is_dir := false,
                    is_symlink := false, dir_count := none }])
        (.error (.ioError ⟨"unused"⟩)) true =
      .error (.invalidFileName "bad") ∧
    (Except.error (LsError.invalidFileName "bad") :
        Except LsError (List FileInfo)) ≠
      .ok [{ name := "a", mode := 0, ext := none, is_dir := false,
             is_symlink := false, dir_count := none },
           { name := "b", mode := 0, ext := none, is_dir := false,
             is_symlink := false, dir_count := none }] := by
  exact ⟨rfl, by simp⟩

/-- C5 (amended): `FileInfo::new` turns an undecodable raw name into an
`InvalidFileName` error and otherwise keeps the decoded name verbatim;
`FileInfo::from_path`, however, never fails on the name: an undecodable (or
absent) final path component is silently replaced by the empty string. -/
theorem fileinfo_name_spec :
    ∀ (m : Metadata) (dbg : String) (ext : Option String) (d sym cd : Bool)
      (listing : Except IoErr (List String)),
      FileInfo.new (.ok m) none dbg ext d sym cd listing =
        .error (.invalidFileName dbg) ∧
      (∀ nm, ∃ fi,
        FileInfo.new (.ok m) (some nm) dbg ext d sym cd listing = .ok fi ∧
        fi.name = nm) ∧
      (∀ rawName : Option String, ∃ fi,
        FileInfo.from_path (.ok m) rawName ext d sym cd listing = .ok fi ∧
        fi.name = rawName.getD "") := by
  intro m dbg ext d sym cd listing
  exact ⟨rfl, fun nm => ⟨_, rfl, rfl⟩, fun rawName => ⟨_, rfl, rfl⟩⟩

/-- Counterexample for C5 as stated: a single-file target whose name does
not decode is constructed successfully with the substituted empty display
name instead of failing with an `InvalidFileName` error. -/
theorem fileinfo_name_counterexample :
    FileInfo.from_path (.ok ⟨0⟩) none none false false false (.ok []) =
      .ok { name := "", mode := 0, ext := none, is_dir := false,
            is_symlink := false, dir_count := none } ∧
    (Except.ok { name := "", mode := 0, ext := none, is_dir := false,
                 is_symlink := false, dir_count := none } :
        Except LsError FileInfo) ≠
      .error (.invalidFileName "") := by
  exact ⟨rfl, by simp⟩

/-- Invariant of the scaling loop of `format_size`: starting from value `q`
at unit index `k` with enough fuel, the loop ends at some index `m ≤ 5`
with the value scaled by `1024 ^ (m - k)`; if it stopped before the last
unit the final value is below 1024, and whenever it advanced at all the
value one unit earlier was still at least 1024. -/
theorem sizeLoopAux_spec (fuel : Nat) :
    ∀ (q : ℚ) (k : Nat), 0 ≤ q → k ≤ 5 → 5 ≤ fuel + k →
      k ≤ (sizeLoopAux fuel q k).2 ∧ (sizeLoopAux fuel q k).2 ≤ 5 ∧
      (sizeLoopAux fuel q k).1 = q / 1024 ^ ((sizeLoopAux fuel q k).2 - k) ∧
      ((sizeLoopAux fuel q k).2 < 5 → (sizeLoopAux fuel q k).1 < 1024) ∧
      (k < (sizeLoopAux fuel q k).2 →
        1024 ≤ q / 1024 ^ ((sizeLoopAux fuel q k).2 - 1 - k)) := by
  induction fuel with
  | zero =>
    intro q k hq hk5 hf
    have hk : k = 5 := by omega
    subst hk
    simp [sizeLoopAux]
  | succ fuel ih =>
    intro q k hq hk5 hf
    simp only [sizeLoopAux]
    by_cases hcond : 1024 ≤ q ∧ k < 5
    · rw [if_pos hcond]
      have hq' : (0 : ℚ) ≤ q / 1024 := by positivity
      obtain ⟨a1, a2, a3, a4, a5⟩ := ih (q / 1024) (k + 1) hq' (by omega) (by omega)
      refine ⟨by omega, a2, ?_, a4, ?_⟩
      · rw [a3, div_div]
        have hmk : (sizeLoopAux fuel (q / 1024) (k + 1)).2 - k =
            ((sizeLoopAux fuel (q / 1024) (k + 1)).2 - (k + 1)) + 1 := by omega
        rw [hmk, pow_succ']
      · intro hkm
        rcases Nat.lt_or_ge (k + 1) (sizeLoopAux fuel (q / 1024) (k + 1)).2 with hlt | hge
        · have h5 := a5 hlt
          rw [div_div] at h5
          have hpow : (1024 : ℚ) * 1024 ^
              ((sizeLoopAux fuel (q / 1024) (k + 1)).2 - 1 - (k + 1)) =
              1024 ^ ((sizeLoopAux fuel (q / 1024) (k + 1)).2 - 1 - k) := by
            rw [← pow_succ']
            congr 1
            omega
          rw [hpow] at h5
          exact h5
        · have hz : (sizeLoopAux fuel (q / 1024) (k + 1)).2 - 1 - k = 0 := by omega
          rw [hz, pow_zero, div_one]
          exact hcond.1
    · rw [if_neg hcond]
      refine ⟨le_refl k, hk5, by simp, ?_, by omega⟩
      intro hk
      rcases not_and_or.mp hcond with h | h
      · exact lt_of_not_le h
      · exact absurd hk h

/-- C7: without human-readable mode the raw byte count is returned for
every size; with it, the four sample sizes render as specified, and for
every size the scaling loop stops at the smallest unit (capped at P, index
5) whose scaled value is below 1024, the final value being the size divided
by 1024 to that unit's power (the base unit then rendered with zero and
larger units with one decimal place, as in the sample values). -/
theorem format_size_spec :
    (∀ n : Nat, format_size n false = toString n) ∧
    format_size 1023 true = "1023B" ∧
    format_size 1024 true = "1.0K" ∧
    format_size 1536 true = "1.5K" ∧
    format_size 0 true = "0B" ∧
    (∀ n : Nat,
      (sizeLoop (n : ℚ)).2 ≤ 5 ∧
      (sizeLoop (n : ℚ)).1 = (n : ℚ) / 1024 ^ (sizeLoop (n : ℚ)).2 ∧
      ((sizeLoop (n : ℚ)).2 < 5 → (sizeLoop (n : ℚ)).1 < 1024) ∧
      (0 < (sizeLoop (n : ℚ)).2 →
        1024 ≤ (n : ℚ) / 1024 ^ ((sizeLoop (n : ℚ)).2 - 1)) ∧
      format_size n true =
        (if (sizeLoop (n : ℚ)).2 = 0 then fmtDec0 (sizeLoop (n : ℚ)).1
         else fmtDec1 (sizeLoop (n : ℚ)).1) ++ UNITS.getD (sizeLoop (n : ℚ)).2 "") := by
  have h1023 : sizeLoop (1023 : ℚ) = ((1023 : ℚ), 0) := by
    norm_num [sizeLoop, sizeLoopAux]
  have r1023 : roundHalfEven (1023 : ℚ) = 1023 := by
    norm_num [roundHalfEven]
  have h1024 : sizeLoop (1024 : ℚ) = ((1 : ℚ), 1) := by
    norm_num [sizeLoop, sizeLoopAux]
  have r1024 : roundHalfEven (10 : ℚ) = 10 := by
    norm_num [roundHalfEven]
  have h1536 : sizeLoop (1536 : ℚ) = ((3 : ℚ) / 2, 1) := by
    norm_num [sizeLoop, sizeLoopAux]
  have r1536 : roundHalfEven ((3 : ℚ) / 2 * 10) = 15 := by
    norm_num [roundHalfEven]
  have h0 : sizeLoop (0 : ℚ) = ((0 : ℚ), 0) := by
    norm_num [sizeLoop, sizeLoopAux]
  have r0 : roundHalfEven (0 : ℚ) = 0 := by
    norm_num [roundHalfEven]
  refine ⟨fun n => rfl, ?_, ?_, ?_, ?_, fun n => ?_⟩
  · simp [format_size, h1023, fmtDec0, r1023, UNITS]
    decide
  · simp [format_size, h1024, fmtDec1, r1024, UNITS]
    decide
  · simp [format_size, h1536, fmtDec1, r1536, UNITS]
    decide
  · simp [format_size, h0, fmtDec0, r0, UNITS]
    decide
  obtain ⟨a1, a2, a3, a4, a5⟩ :=
    sizeLoopAux_spec 5 (n : ℚ) 0 (by positivity) (by omega) (by omega)
  refine ⟨a2, by simpa using a3, a4, by simpa using a5, ?_⟩
  by_cases hz : (sizeLoop ((n : Nat) : ℚ)).2 = 0
  · simp [format_size, hz]
  · simp [format_size, hz]

/-- Witness for C7 at a concrete input: the scaled value for 2048 bytes
lies below 1024 at its chosen unit. -/
theorem format_size_spec_witness :
    (sizeLoop ((2048 : Nat) : ℚ)).2 ≤ 5 ∧
    ((sizeLoop ((2048 : Nat) : ℚ)).2 < 5 → (sizeLoop ((2048 : Nat) : ℚ)).1 < 1024) :=
  ⟨(format_size_spec.2.2.2.2.2 2048).1, (format_size_spec.2.2.2.2.2 2048).2.2.1⟩

/-- String concatenation concatenates the character data. -/
theorem string_data_append (a b : String) : (a ++ b).data = a.data ++ b.data := rfl

/-- Stripping walks over escape-free text unchanged. -/
theorem stripAux_false_noEsc (l r : List Char) (h : escChar ∉ l) :
    stripAux false (l ++ r) = l ++ stripAux false r := by
  induction l with
  | nil => rfl
  | cons c cs ih =>
    simp only [List.mem_cons, not_or] at h
    have hstep : stripAux false ((c :: cs) ++ r) = c :: stripAux false (cs ++ r) := by
      simp only [List.cons_append, stripAux]
      rw [if_neg fun hc => h.1 hc.symm]
      rfl
    rw [hstep, ih h.2]
    rfl

/-- Stripping an escape-free string is the identity. -/
theorem stripAux_false_of_noEsc (l : List Char) (h : escChar ∉ l) :
    stripAux false l = l := by
  have := stripAux_false_noEsc l [] h
  simpa [stripAux] using this

/-- Stripping removes one two-digit color sequence, the wrapped escape-free
text, and the reset sequence. -/
theorem stripAux_code (d1 d2 : Char) (s : String) (rest : List Char)
    (h1 : ¬ d1 = 'm') (h2 : ¬ d2 = 'm') (hs : escChar ∉ s.data) :
    stripAux false (escChar :: '[' :: d1 :: d2 :: 'm' ::
        (s.data ++ (escChar :: '[' :: '0' :: 'm' :: rest))) =
      s.data ++ stripAux false rest := by
  have step : ∀ (c : Char) (y : List Char), stripAux true (c :: y) =
      if c = 'm' then stripAux false y else stripAux true y := fun c y => rfl
  have e1 : stripAux false (escChar :: '[' :: d1 :: d2 :: 'm' ::
      (s.data ++ (escChar :: '[' :: '0' :: 'm' :: rest))) =
      stripAux true (d1 :: d2 :: 'm' ::
        (s.data ++ (escChar :: '[' :: '0' :: 'm' :: rest))) := rfl
  rw [e1, step, if_neg h1, step, if_neg h2, step, if_pos rfl,
    stripAux_false_noEsc _ _ hs,
    show stripAux false (escChar :: '[' :: '0' :: 'm' :: rest) =
      stripAux false rest from rfl]

/-- Stripping inverts `colorWrap` on escape-free text, leaving the
remainder of the stream to be stripped. -/
theorem stripAux_colorWrap (c : Color) (s : String) (rest : List Char)
    (hs : escChar ∉ s.data) :
    stripAux false ((colorWrap c s).data ++ rest) =
      s.data ++ stripAux false rest := by
  have hassoc : (colorWrap c s).data ++ rest =
      (ansiCode c).data ++ (s.data ++ (("\x1b[0m" : String).data ++ rest)) := by
    show (((ansiCode c).data ++ s.data) ++ ("\x1b[0m" : String).data) ++ rest = _
    simp [List.append_assoc]
  rw [hassoc]
  cases c <;> exact stripAux_code _ _ s rest (by decide) (by decide) hs

/-- `Nat.digitChar` never yields the escape character. -/
theorem digitChar_ne_esc (m : Nat) : ¬ Nat.digitChar m = escChar := by
  rcases Nat.lt_or_ge m 16 with h | h
  · interval_cases m <;> decide
  · unfold Nat.digitChar
    repeat rw [if_neg (by omega)]
    decide

/-- The digit accumulator of `Nat.repr` never contains the escape
character. -/
theorem toDigitsCore_noEsc :
    ∀ (fuel n : Nat) (acc : List Char), escChar ∉ acc →
      escChar ∉ Nat.toDigitsCore 10 fuel n acc := by
  intro fuel
  induction fuel with
  | zero =>
    intro n acc h
    simpa [Nat.toDigitsCore] using h
  | succ fuel ih =>
    intro n acc h
    simp only [Nat.toDigitsCore]
    by_cases hn : n / 10 = 0
    · rw [if_pos hn]
      intro hmem
      rcases List.mem_cons.mp hmem with hc | hc
      · exact digitChar_ne_esc (n % 10) hc.symm
      · exact h hc
    · rw [if_neg hn]
      refine ih _ _ ?_
      intro hmem
      rcases List.mem_cons.mp hmem with hc | hc
      · exact digitChar_ne_esc (n % 10) hc.symm
      · exact h hc

/-- The decimal rendering of a natural number contains no escape
character. -/
theorem natRepr_noEsc (n : Nat) : escChar ∉ (toString n).data := by
  show escChar ∉ Nat.toDigits 10 n
  exact toDigitsCore_noEsc (n + 1) n [] (by simp)

/-- Stripping at the string level reduces to stripping the data. -/
theorem stripAnsi_eq_of_data (s t : String) (h : stripAux false s.data = t.data) :
    stripAnsi s = t := by
  unfold stripAnsi
  rw [h]

/-- C9 (amended): for every entry whose name is free of the ESC character,
the name-plus-indicator text rendered with coloring disabled is exactly the
colored rendering with all ANSI escape sequences stripped — covering the
colored name, the colored `/` suffix, and the colored `(N)` and `[?]` count
annotations.  (Without the escape-free proviso the claim fails: see the
counterexample, where a name embedding its own escape sequence is stripped
from the colored output but kept verbatim in the plain output.) -/
theorem format_filename_strip_spec :
    ∀ (file : FileInfo) (show_counts : Bool), escChar ∉ file.name.data →
      stripAnsi (colorize_filename file true) = colorize_filename file false ∧
      stripAnsi (format_filename_with_indicators file true show_counts) =
        format_filename_with_indicators file false show_counts := by
  intro file sc h
  have hcol : stripAnsi (colorize_filename file true) = colorize_filename file false := by
    have hrhs : colorize_filename file false = file.name := by
      simp [colorize_filename]
    rw [hrhs]
    cases hgc : get_file_color file with
    | none =>
      have hlhs : colorize_filename file true = file.name := by
        simp [colorize_filename, hgc]
      rw [hlhs]
      exact stripAnsi_eq_of_data _ _ (stripAux_false_of_noEsc _ h)
    | some col =>
      have hlhs : colorize_filename file true = colorWrap col file.name := by
        simp [colorize_filename, hgc]
      rw [hlhs]
      apply stripAnsi_eq_of_data
      have hw := stripAux_colorWrap col file.name [] h
      simpa [stripAux] using hw
  refine ⟨hcol, ?_⟩
  by_cases hd : file.is_dir = true
  · have hgc : get_file_color file = some Color.brightCyan := by
      simp [get_file_color, hd]
    have hct : colorize_filename file true = colorWrap Color.brightCyan file.name := by
      simp [colorize_filename, hgc]
    have hcf : colorize_filename file false = file.name := by
      simp [colorize_filename]
    cases sc with
    | true =>
      cases hdc : file.dir_count with
      | some n =>
        have hlhs : format_filename_with_indicators file true true =
            colorWrap Color.brightCyan file.name ++ colorWrap Color.brightCyan "(" ++
              colorWrap Color.brightBlack (toString n) ++
              colorWrap Color.brightCyan ")" := by
          simp [format_filename_with_indicators, hd, hdc, hgc, hct]
        have hrhs : format_filename_with_indicators file false true =
            file.name ++ "(" ++ toString n ++ ")" := by
          simp [format_filename_with_indicators, hd, hdc, hcf]
        rw [hlhs, hrhs]
        apply stripAnsi_eq_of_data
        have hdata : (colorWrap Color.brightCyan file.name ++
            colorWrap Color.brightCyan "(" ++
            colorWrap Color.brightBlack (toString n) ++
            colorWrap Color.brightCyan ")").data =
            (colorWrap Color.brightCyan file.name).data ++
              ((colorWrap Color.brightCyan "(").data ++
                ((colorWrap Color.brightBlack (toString n)).data ++
                  ((colorWrap Color.brightCyan ")").data ++ ([] : List Char)))) := by
          simp [string_data_append, List.append_assoc]
        rw [hdata, stripAux_colorWrap _ _ _ h, stripAux_colorWrap _ _ _ (by decide),
          stripAux_colorWrap _ _ _ (natRepr_noEsc n),
          stripAux_colorWrap _ _ _ (by decide)]
        simp [string_data_append, stripAux, List.append_assoc]
      | none =>
        have hlhs : format_filename_with_indicators file true true =
            colorWrap Color.brightCyan file.name ++ colorWrap Color.brightCyan "[" ++
              colorWrap Color.brightBlack "?" ++ colorWrap Color.brightCyan "]" := by
          simp [format_filename_with_indicators, hd, hdc, hgc, hct]
        have hrhs : format_filename_with_indicators file false true =
            file.name ++ "[?]" := by
          simp [format_filename_with_indicators, hd, hdc, hcf]
        rw [hlhs, hrhs]
        apply stripAnsi_eq_of_data
        have hdata : (colorWrap Color.brightCyan file.name ++
            colorWrap Color.brightCyan "[" ++ colorWrap Color.brightBlack "?" ++
            colorWrap Color.brightCyan "]").data =
            (colorWrap Color.brightCyan file.name).data ++
              ((colorWrap Color.brightCyan "[").data ++
                ((colorWrap Color.brightBlack "?").data ++
                  ((colorWrap Color.brightCyan "]").data ++ ([] : List Char)))) := by
          simp [string_data_append, List.append_assoc]
        rw [hdata, stripAux_colorWrap _ _ _ h, stripAux_colorWrap _ _ _ (by decide),
          stripAux_colorWrap _ _ _ (by decide), stripAux_colorWrap _ _ _ (by decide)]
        simp [string_data_append, stripAux, List.append_assoc]
    | false =>
      have hlhs : format_filename_with_indicators file true false =
          colorWrap Color.brightCyan file.name ++ colorWrap Color.brightCyan "/" := by
        simp [format_filename_with_indicators, hd, hgc, hct]
      have hrhs : format_filename_with_indicators file false false =
          file.name ++ "/" := by
        simp [format_filename_with_indicators, hd, hcf]
      rw [hlhs, hrhs]
      apply stripAnsi_eq_of_data
      have hdata : (colorWrap Color.brightCyan file.name ++
          colorWrap Color.brightCyan "/").data =
          (colorWrap Color.brightCyan file.name).data ++
            ((colorWrap Color.brightCyan "/").data ++ ([] : List Char)) := by
        simp [string_data_append, List.append_assoc]
      rw [hdata, stripAux_colorWrap _ _ _ h, stripAux_colorWrap _ _ _ (by decide)]
      simp [string_data_append, stripAux, List.append_assoc]
  · have hd' : file.is_dir = false := by
      revert hd
      cases file.is_dir <;> simp
    have hlhs : format_filename_with_indicators file true sc =
        colorize_filename file true := by
      simp [format_filename_with_indicators, hd']
    have hrhs : format_filename_with_indicators file false sc =
        colorize_filename file false := by
      simp [format_filename_with_indicators, hd']
    rw [hlhs, hrhs]
    exact hcol

/-- Witness for C9 at a concrete input: a directory named docs with three
counted children strips to its plain rendering. -/
theorem format_filename_strip_spec_witness :
    stripAnsi (format_filename_with_indicators
        { name := "docs", mode := 0o40755, ext := none, is_dir := true,
          is_symlink := false, dir_count := some 3 } true true) =
      format_filename_with_indicators
        { name := "docs", mode := 0o40755, ext := none, is_dir := true,
          is_symlink := false, dir_count := some 3 } false true :=
  (format_filename_strip_spec
    { name := "docs", mode := 0o40755, ext := none, is_dir := true,
      is_symlink := false, dir_count := some 3 } true (by decide)).2

/-- Counterexample for C9 as stated over all entries: a file whose own name
contains an ANSI escape sequence renders identically on the colored and
plain paths (no color applies to it), yet stripping removes the embedded
sequence, so the stripped colored output differs from the plain output. -/
theorem format_filename_strip_counterexample :
    stripAnsi (format_filename_with_indicators
        { name := "\x1b[31mx", mode := 0, ext := none, is_dir := false,
          is_symlink := false, dir_count := none } true true) ≠
      format_filename_with_indicators
        { name := "\x1b[31mx", mode := 0, ext := none, is_dir := false,
          is_symlink := false, dir_count := none } false true := by
  decide
